import Mathlib

/-!
Shallow embedding of the `cells` repository's core (crates `percentage`,
`cell_particle`, `cell_engine`) and verification of its specification.

Conventions of the embedding:
* Rust `Vec<Vec<T>>` becomes `List (List α)`; `usize` becomes `ℕ`
  (so Rust's `saturating_sub` is plain truncated `Nat` subtraction).
* `f32` percentage/state values are embedded as exact rationals `ℚ`;
  the claims settled here only evaluate them at exactly-representable
  points, where `f32` arithmetic agrees with `ℚ`.
* Rust `Result<A, E>` becomes `Except E A`.
* A Rust index expression that can panic (`v[i]`) is embedded with
  `List.get?` plus a fallback; each such spot is reachable only from
  arguments that violate the grid invariant and is noted in place.
* `HashSet<(usize, usize)>` becomes `Finset (ℕ × ℕ)`; iteration order of
  a `HashSet` is unspecified, so the tick driver takes the iteration
  order and the random draws as explicit parameters.
-/

namespace Cells

/-- Indexed map over a list; `mapWithIndex f [a₀, a₁, …] = [f 0 a₀, f 1 a₁, …]`.
Used to embed Rust's `iter_mut().enumerate()` write loops. -/
def mapWithIndex {α β : Type} (f : ℕ → α → β) : List α → List β
  | [] => []
  | a :: as => f 0 a :: mapWithIndex (fun i b => f (i + 1) b) as

theorem mapWithIndex_get? {α β : Type} (f : ℕ → α → β) (l : List α) (n : ℕ) :
    (mapWithIndex f l).get? n = (l.get? n).map (f n) := by
  induction l generalizing f n with
  | nil => simp [mapWithIndex]
  | cons a as ih =>
    cases n with
    | zero => simp [mapWithIndex]
    | succ n => simpa [mapWithIndex] using ih (fun i b => f (i + 1) b) n

theorem mapWithIndex_length {α β : Type} (f : ℕ → α → β) (l : List α) :
    (mapWithIndex f l).length = l.length := by
  induction l generalizing f with
  | nil => rfl
  | cons a as ih => simpa [mapWithIndex] using ih (fun i b => f (i + 1) b)

/-! ## `cell_particle::grid` -/

/-- `Dimensions` from `cell_particle/src/grid.rs`. -/
structure Dimensions where
  width : ℕ
  height : ℕ
deriving DecidableEq, Repr

/-- `GridError` from `cell_particle/src/grid.rs`. -/
inductive GridError where
  | EmptyGrid
  | UnequalRowLengths
  | OutOfBounds
  | SubgridBiggerThanGrid
deriving DecidableEq, Repr

/-- `Grid<T>` from `cell_particle/src/grid.rs`: a row-major `Vec<Vec<T>>`. -/
structure Grid (α : Type) where
  cells : List (List α)
deriving DecidableEq, Repr

namespace Grid

variable {α : Type}

/-- `Grid::validate`. -/
def validate (g : Grid α) : Except GridError Unit :=
  if g.cells.isEmpty then .error .EmptyGrid
  else
    let expected_width := (g.cells.headD []).length
    if g.cells.any (fun row => row.length != expected_width) then
      .error .UnequalRowLengths
    else .ok ()

/-- `Grid::new`. -/
def new (cells : List (List α)) : Except GridError (Grid α) :=
  let grid : Grid α := ⟨cells⟩
  match grid.validate with
  | .error e => .error e
  | .ok _ => .ok grid

/-- `Grid::dimensions`: height is the row count, width the first row's length. -/
def dimensions (g : Grid α) : Dimensions :=
  { width := ((g.cells.head?).map List.length).getD 0, height := g.cells.length }

/-- `Grid::get`. -/
def get (g : Grid α) (x y : ℕ) : Except GridError α :=
  match g.cells.get? y with
  | none => .error .OutOfBounds
  | some row =>
    match row.get? x with
    | none => .error .OutOfBounds
    | some c => .ok c

/-- `Grid::get_subgrid`: rows `skip y, take height`, in each row
`skip x, take width`; always returns `Ok` exactly as the Rust code does. -/
def get_subgrid (g : Grid α) (x y width height : ℕ) : Except GridError (Grid α) :=
  .ok ⟨((g.cells.drop y).take height).map (fun row => (row.drop x).take width)⟩

/-- `Grid::set_subgrid`: rejects a source whose dimensions exceed the whole
destination grid's dimensions, then overwrites the destination rectangle
element-wise.  The Rust indexing `grid.cells[i][j]` (which panics when the
source rows are shorter than its first row) is embedded as `get?` with the
old cell as fallback; the fallback is unreachable for source grids
satisfying the `validate` invariant. -/
def set_subgrid (g : Grid α) (x y : ℕ) (src : Grid α) : Except GridError (Grid α) :=
  let width := src.dimensions.width
  let height := src.dimensions.height
  if g.dimensions.width < width ∨ g.dimensions.height < height then
    .error .SubgridBiggerThanGrid
  else
    .ok ⟨mapWithIndex (fun r row =>
      if y ≤ r ∧ r < y + height then
        mapWithIndex (fun c cell =>
          if x ≤ c ∧ c < x + width then
            (((src.cells.get? (r - y)).bind (fun srow => srow.get? (c - x))).getD cell)
          else cell) row
      else row) g.cells⟩

/-- Embeds `*cell = v` after a successful `Grid::get_mut(x, y)` borrow:
out-of-bounds indices leave the grid unchanged (the Rust caller is guarded
by the `Ok` pattern of `get_mut`). -/
def setCell (g : Grid α) (x y : ℕ) (v : α) : Grid α :=
  ⟨g.cells.set y (((g.cells.get? y).getD []).set x v)⟩

end Grid

/-! ## `percentage` crate -/

/-- `EPSILON` from `percentage/src/lib.rs`. -/
def EPSILON : ℚ := 1 / 100000

/-- `Percentage` from `percentage/src/lib.rs`, with the `f32` payload
embedded as an exact rational. -/
structure Percentage where
  val : ℚ
deriving DecidableEq, Repr

namespace Percentage

/-- `Percentage::new`: clamp to `[0, 1]`. -/
def new (value : ℚ) : Percentage := ⟨max 0 (min value 1)⟩

/-- `Percentage::value`. -/
def value (p : Percentage) : ℚ := p.val

/-- `Percentage::is_one`: within `EPSILON` of `1`. -/
def is_one (p : Percentage) : Bool := decide (|p.val - 1| < EPSILON)

/-- `impl Sum for Percentage`: sum the raw values, then clamp via `new`. -/
def sum (l : List Percentage) : Percentage := Percentage.new (l.map val).sum

end Percentage

/-! ## `cell_particle::rule` -/

/-- `Occupancy<T>` from `cell_particle/src/rule/mod.rs`. -/
inductive Occupancy (T : Type) where
  | OccupiedBy (t : T)
  | OccupiedByAny
  | Unknown
  | Vacant
deriving DecidableEq, Repr

/-- `impl PartialEq for Occupancy`: the wildcard-aware matching relation.
The match arms appear in the source's order. -/
def Occupancy.eq {T : Type} [DecidableEq T] : Occupancy T → Occupancy T → Bool
  | .OccupiedBy a, .OccupiedBy b => decide (a = b)
  | .OccupiedByAny, .OccupiedByAny => true
  | .OccupiedBy _, .OccupiedByAny => true
  | .OccupiedByAny, .OccupiedBy _ => true
  | .Unknown, _ => true
  | _, .Unknown => true
  | .Vacant, .Vacant => true
  | _, _ => false

/-- `Input<T>` from `cell_particle/src/rule/mod.rs`. -/
structure Input (T : Type) where
  grid : Grid T
deriving DecidableEq, Repr

/-- `Output<T>` from `cell_particle/src/rule/mod.rs`. -/
structure Output (T : Type) where
  grid : Grid T
  probability : Percentage
deriving DecidableEq, Repr

/-- `RuleError` from `cell_particle/src/rule/mod.rs`. -/
inductive RuleError where
  | DimensionMismatch (output_dims input_dims : Dimensions)
  | OutputNotInProbabilisticUnity (total_probability : Percentage)
deriving DecidableEq, Repr

/-- `Rule<T>` from `cell_particle/src/rule/mod.rs`. -/
structure Rule (T : Type) where
  input : Input T
  output : List (Output T)
deriving DecidableEq, Repr

namespace Rule

variable {T : Type}

/-- `Rule::validate`: report the first output whose dimensions differ from
the input's, otherwise check that the probabilities sum (with `Sum`'s
clamping) to unity. -/
def validate (r : Rule T) : Except RuleError Unit :=
  let input_dims := r.input.grid.dimensions
  match r.output.find? (fun o => o.grid.dimensions != input_dims) with
  | some o => .error (.DimensionMismatch o.grid.dimensions input_dims)
  | none =>
    let total_probability := Percentage.sum (r.output.map Output.probability)
    if total_probability.is_one then .ok ()
    else .error (.OutputNotInProbabilisticUnity total_probability)

/-- `Rule::new`. -/
def new (input : Input T) (output : List (Output T)) : Except RuleError (Rule T) :=
  let rule : Rule T := ⟨input, output⟩
  match rule.validate with
  | .error e => .error e
  | .ok _ => .ok rule

/-- `Rule::dimensions`. -/
def dimensions (r : Rule T) : Dimensions := r.input.grid.dimensions

/-- `Rule::matches`, parametrised by the cell comparison the Rust code takes
from `T`'s `PartialEq` (for `Occupancy` cells this is the matching relation
`Occupancy.eq`).  The Rust indexing `grid.cells[i][j]` panics when `grid`'s
rows are shorter than announced by `dimensions`; that is embedded as a
non-match and is unreachable for grids satisfying the `validate` invariant. -/
def matchesWith (eqFn : T → T → Bool) (r : Rule T) (grid : Grid T) : Bool :=
  if r.input.grid.dimensions != grid.dimensions then false
  else
    r.input.grid.cells.enum.all fun (i, row) =>
      row.enum.all fun (j, cell) =>
        match (grid.cells.get? i).bind (fun grow => grow.get? j) with
        | some gc => eqFn cell gc
        | none => false

end Rule

/-! ## `cell_particle::particle` -/

/-- `ParticleKind` from `cell_particle/src/particle/kind.rs`. -/
inductive ParticleKind where
  | Sand
  | Water
  | Stone
deriving DecidableEq, Repr

/-- `ParticleState` from `cell_particle/src/particle/state.rs`, `f32` fields
embedded as exact rationals. -/
structure ParticleState where
  temperature : ℚ
  pressure : ℚ
  density : ℚ
deriving DecidableEq, Repr

/-- `impl Default for ParticleState`. -/
def ParticleState.default : ParticleState :=
  { temperature := 20, pressure := 101325 / 1000, density := 1 }

/-- `ParticleState::from_kind`. -/
def ParticleState.from_kind : ParticleKind → ParticleState
  | .Sand => { ParticleState.default with density := 3 / 2 }
  | .Water => { ParticleState.default with density := 1 }
  | .Stone => { ParticleState.default with density := 265 / 100 }

/-- `Particle` from `cell_particle/src/particle/mod.rs`. -/
structure Particle where
  kind : ParticleKind
  state : ParticleState
deriving DecidableEq, Repr

/-- `Particle::new`: default state for the kind. -/
def Particle.new (kind : ParticleKind) : Particle :=
  { kind := kind, state := ParticleState.from_kind kind }

/-! ## `cell_engine::components` -/

/-- `ParticleCell` from `cell_engine/src/components.rs`. -/
structure ParticleCell where
  content : Option Particle
deriving DecidableEq, Repr

/-- `ActiveCells` from `cell_engine/src/components.rs`; the three
`HashSet<(usize, usize)>` fields become `Finset (ℕ × ℕ)`. -/
structure ActiveCells where
  cells : Finset (ℕ × ℕ)
  to_check_next_frame : Finset (ℕ × ℕ)
  affected_this_frame : Finset (ℕ × ℕ)
deriving DecidableEq

namespace ActiveCells

/-- `ActiveCells::new`. -/
def new : ActiveCells := ⟨∅, ∅, ∅⟩

/-- `ActiveCells::mark_active`. -/
def mark_active (a : ActiveCells) (x y : ℕ) : ActiveCells :=
  { a with cells := insert (x, y) a.cells }

/-- `ActiveCells::mark_for_next_frame`. -/
def mark_for_next_frame (a : ActiveCells) (x y : ℕ) : ActiveCells :=
  { a with to_check_next_frame := insert (x, y) a.to_check_next_frame }

/-- `ActiveCells::mark_affected`. -/
def mark_affected (a : ActiveCells) (x y : ℕ) : ActiveCells :=
  { a with affected_this_frame := insert (x, y) a.affected_this_frame }

/-- `ActiveCells::update`: swap `cells` with `to_check_next_frame`, then
clear `to_check_next_frame` and `affected_this_frame`. -/
def update (a : ActiveCells) : ActiveCells :=
  { cells := a.to_check_next_frame, to_check_next_frame := ∅, affected_this_frame := ∅ }

end ActiveCells

/-- `CellWorld` from `cell_engine/src/components.rs`. -/
structure CellWorld where
  resolution : ℕ
  grid : Grid ParticleCell
  active_cells : ActiveCells

namespace CellWorld

/-- `CellWorld::new`: a `width × height` grid of empty cells. -/
def new (width height : ℕ) : CellWorld :=
  { resolution := 10
    grid := ⟨List.replicate height (List.replicate width ⟨none⟩)⟩
    active_cells := ActiveCells.new }

/-- The grid conversion inside `CellWorld::choose_rule_output`: the chosen
output grid is turned into particle cells — `OccupiedBy(kind)` becomes a
fresh `Particle::new(kind)`, `Unknown` and `OccupiedByAny` read the
corresponding cell of the pre-mutation window snapshot, anything else
(`Vacant`) becomes empty.  The Rust `current_grid_window.get(x, y).unwrap()`
panics out of bounds; that is embedded as an empty cell and is unreachable
when the window has the output grid's shape. -/
def outputGridToCells (out : Grid (Occupancy ParticleKind))
    (current_grid_window : Grid ParticleCell) : Grid ParticleCell :=
  ⟨mapWithIndex (fun y row =>
    mapWithIndex (fun x cell =>
      ({ content :=
        match cell with
        | .OccupiedBy kind => some (Particle.new kind)
        | .Unknown | .OccupiedByAny =>
          match current_grid_window.get x y with
          | .ok c => c.content
          | .error _ => none
        | .Vacant => none } : ParticleCell)) row) out.cells⟩

/-- The per-cell conversion rule of `choose_rule_output`, with the
pre-mutation window cell supplied directly: `OccupiedBy k` yields a fresh
particle of kind `k`, `Vacant` yields empty, `Unknown` and `OccupiedByAny`
keep the window cell's occupant.  Used to state what the conversion does
cell-wise. -/
def convertCell (cell : Occupancy ParticleKind) (wc : ParticleCell) : ParticleCell :=
  ⟨match cell with
    | .OccupiedBy kind => some (Particle.new kind)
    | .Unknown | .OccupiedByAny => wc.content
    | .Vacant => none⟩

/-- `CellWorld::choose_rule_output` with the `WeightedIndex` sample made an
explicit parameter: `draw` stands for the sampled index into the output
list (the sampler only ever produces indices below the list's length, which
`% rule.output.length` enforces in the model).  An empty output list makes
the Rust code panic in `WeightedIndex::new`; that is embedded as an empty
grid. -/
def choose_rule_output (rule : Rule (Occupancy ParticleKind))
    (current_grid_window : Grid ParticleCell) (draw : ℕ) : Grid ParticleCell :=
  match rule.output.get? (draw % rule.output.length) with
  | some chosen_output => outputGridToCells chosen_output.grid current_grid_window
  | none => ⟨[]⟩

/-- The conversion of a grid window into `Occupancy` values inside
`CellWorld::update`: an occupied cell becomes `OccupiedBy` its particle's
kind, an empty cell becomes `Vacant`. -/
def particleKindWindow (window : Grid ParticleCell) : Grid (Occupancy ParticleKind) :=
  ⟨window.cells.map (fun row => row.map (fun cell =>
    match cell.content with
    | some p => Occupancy.OccupiedBy p.kind
    | none => Occupancy.Vacant))⟩

/-- One rule application recorded by the tick driver: the active cell that
triggered it, the window's top-left corner and the rule's dimensions. -/
structure RuleApplication where
  cell : ℕ × ℕ
  rule_x : ℕ
  rule_y : ℕ
  dims : Dimensions
deriving DecidableEq, Repr

/-- The mutable state threaded through one `CellWorld::update` tick:
the write-target grid (`new_grid`), the taken `next_active_cells`, and a
log of the rule applications performed (for stating how many times a cell
is written). -/
structure TickState where
  new_grid : Grid ParticleCell
  acc : ActiveCells
  log : List RuleApplication

/-- The cells marked affected when a rule fires: the whole rule window. -/
def rectCells (x y w h : ℕ) : Finset (ℕ × ℕ) :=
  (Finset.range w ×ˢ Finset.range h).image (fun p => (x + p.1, y + p.2))

/-- The cells marked for the next frame when a rule fires at `(x, y)`:
the 3×3 neighborhood clamped to the grid, plus the cell directly below each
neighborhood cell when in bounds. -/
def nextFrameMarks (W H x y : ℕ) : Finset (ℕ × ℕ) :=
  (Finset.Icc (x - 1) (min (x + 1) (W - 1)) ×ˢ
    Finset.Icc (y - 1) (min (y + 1) (H - 1))).biUnion
    (fun p => if p.2 + 1 < H then {p, (p.1, p.2 + 1)} else {p})

/-- The body of `CellWorld::update`'s match branch: choose an output, write
it at `(rule_x, rule_y)` of the new grid (`set_subgrid`; the Rust `unwrap`
panic on failure is embedded as a no-op write, unreachable for validated
rules), mark the rule window affected, mark the neighborhood for the next
frame, and log the application. -/
def applyRule (grid : Grid ParticleCell) (rule : Rule (Occupancy ParticleKind))
    (x y rule_x rule_y : ℕ) (window : Grid ParticleCell) (draw : ℕ)
    (st : TickState) : TickState :=
  let rule_dims := rule.dimensions
  let chosen_output := choose_rule_output rule window draw
  let new_grid :=
    match st.new_grid.set_subgrid rule_x rule_y chosen_output with
    | .ok g => g
    | .error _ => st.new_grid
  let W := grid.dimensions.width
  let H := grid.dimensions.height
  { new_grid := new_grid
    acc := { st.acc with
      affected_this_frame :=
        st.acc.affected_this_frame ∪ rectCells rule_x rule_y rule_dims.width rule_dims.height
      to_check_next_frame := st.acc.to_check_next_frame ∪ nextFrameMarks W H x y }
    log := st.log ++ [⟨(x, y), rule_x, rule_y, rule_dims⟩] }

/-- The inner rule loop of `CellWorld::update` for one active cell `(x, y)`:
try the ordered rules in turn; centre each rule's window with saturating
half-extent offsets, skip the rule when the window would cross the far
edge, otherwise extract the window, convert it to occupancies and test the
rule; the first match is applied and ends the loop for this cell. -/
def tryRules (grid : Grid ParticleCell) (x y : ℕ) (draw : ℕ) (st : TickState) :
    List (Rule (Occupancy ParticleKind)) → TickState
  | [] => st
  | rule :: rest =>
    let rule_dims := rule.dimensions
    let rule_x := x - rule_dims.width / 2
    let rule_y := y - rule_dims.height / 2
    if rule_x + rule_dims.width > grid.dimensions.width ∨
        rule_y + rule_dims.height > grid.dimensions.height then
      tryRules grid x y draw st rest
    else
      match grid.get_subgrid rule_x rule_y rule_dims.width rule_dims.height with
      | .error _ => tryRules grid x y draw st rest
      | .ok window =>
        if rule.matchesWith Occupancy.eq (particleKindWindow window) then
          applyRule grid rule x y rule_x rule_y window draw st
        else
          tryRules grid x y draw st rest

/-- Derived predicate: rule `rule` fires at active cell `(x, y)` of `grid` —
its centred window stays inside the grid and the window's occupancies match
the rule's input pattern.  Used to characterise the first-match-wins loop. -/
def ruleFires (grid : Grid ParticleCell) (x y : ℕ)
    (rule : Rule (Occupancy ParticleKind)) : Bool :=
  let rule_dims := rule.dimensions
  let rule_x := x - rule_dims.width / 2
  let rule_y := y - rule_dims.height / 2
  if rule_x + rule_dims.width > grid.dimensions.width ∨
      rule_y + rule_dims.height > grid.dimensions.height then false
  else
    match grid.get_subgrid rule_x rule_y rule_dims.width rule_dims.height with
    | .ok window => rule.matchesWith Occupancy.eq (particleKindWindow window)
    | .error _ => false

/-- Derived: apply `rule` at active cell `(x, y)` — extract the centred
window and run `applyRule`.  Used to characterise the first-match-wins
loop. -/
def applyAt (grid : Grid ParticleCell) (rule : Rule (Occupancy ParticleKind))
    (x y : ℕ) (draw : ℕ) (st : TickState) : TickState :=
  let rule_dims := rule.dimensions
  let rule_x := x - rule_dims.width / 2
  let rule_y := y - rule_dims.height / 2
  match grid.get_subgrid rule_x rule_y rule_dims.width rule_dims.height with
  | .ok window => applyRule grid rule x y rule_x rule_y window draw st
  | .error _ => st

/-- A logged rule application writes grid cell `c` when `c` lies in the
application's destination rectangle. -/
def RuleApplication.writesTo (app : RuleApplication) (c : ℕ × ℕ) : Bool :=
  decide (app.rule_x ≤ c.1 ∧ c.1 < app.rule_x + app.dims.width ∧
    app.rule_y ≤ c.2 ∧ c.2 < app.rule_y + app.dims.height)

/-- How many of a tick's logged rule applications write to grid cell `c`. -/
def timesWritten (log : List RuleApplication) (c : ℕ × ℕ) : ℕ :=
  (log.filter (fun app => app.writesTo c)).length

/-- One iteration of `CellWorld::update`'s cell loop: a cell already in
`affected_this_frame` is skipped outright, otherwise the rules are tried. -/
def processCell (grid : Grid ParticleCell)
    (rules : List (Rule (Occupancy ParticleKind))) (draw : ℕ × ℕ → ℕ)
    (st : TickState) (c : ℕ × ℕ) : TickState :=
  if c ∈ st.acc.affected_this_frame then st
  else tryRules grid c.1 c.2 (draw c) st rules

/-- `CellWorld::update`, with its sources of nondeterminism made explicit:
`rules` is the tick's ordered rule list (the result of the
priority-sort / shuffle / random-insertion preamble), `cells_to_check` the
iteration order of the active `HashSet`, and `draw` the weighted-index
sample used if a rule fires at a given cell.  Returns the updated world
together with the log of rule applications. -/
def update (world : CellWorld) (rules : List (Rule (Occupancy ParticleKind)))
    (cells_to_check : List (ℕ × ℕ)) (draw : ℕ × ℕ → ℕ) :
    CellWorld × List RuleApplication :=
  let st0 : TickState := ⟨world.grid, world.active_cells, []⟩
  let stf := cells_to_check.foldl (processCell world.grid rules draw) st0
  ({ world with grid := stf.new_grid, active_cells := stf.acc.update }, stf.log)

end CellWorld

/-! ## `cell_engine::systems::mouse_input` (the in-grid edit branch) -/

/-- The single-cell edit path of `mouse_input` in `cell_engine/src/systems.rs`,
after the pointer position has been converted to grid coordinates `(x, y)`:
if `(x, y)` is in bounds, write the cell (`Despawn` is `none`, `Spawn(kind)`
is `some kind`) and mark the 3×3 square `x-1..=x+1 × y-1..=y+1`
(saturating at zero, not clamped at the far edges) active. -/
def mouseInputPlace (world : CellWorld) (x y : ℕ) (tool : Option ParticleKind) :
    CellWorld :=
  match world.grid.get x y with
  | .error _ => world
  | .ok _ =>
    { world with
      grid := world.grid.setCell x y ⟨tool.map Particle.new⟩
      active_cells := { world.active_cells with
        cells := world.active_cells.cells ∪
          (Finset.Icc (x - 1) (x + 1) ×ˢ Finset.Icc (y - 1) (y + 1)) } }

/-! ## Concrete example data used by the verification -/

/-- A 1×1 all-wildcard pattern grid. -/
def exGrid1x1 : Grid (Occupancy ParticleKind) := ⟨[[.Unknown]]⟩

/-- A rule with two identical same-shaped 1×1 outputs, each of
probability 1 (probability sum 2). -/
def exRuleDoubleProb : Rule (Occupancy ParticleKind) :=
  ⟨⟨exGrid1x1⟩, [⟨exGrid1x1, Percentage.new 1⟩, ⟨exGrid1x1, Percentage.new 1⟩]⟩

/-- A 2×1 all-wildcard rule with a single certain all-wildcard output. -/
def exRule2x1 : Rule (Occupancy ParticleKind) :=
  ⟨⟨⟨[[.Unknown, .Unknown]]⟩⟩, [⟨⟨[[.Unknown, .Unknown]]⟩, Percentage.new 1⟩]⟩

/-- A cell holding a fresh sand particle. -/
def sandCell : ParticleCell := ⟨some (Particle.new .Sand)⟩

/-- A 3×1 world of sand whose active set is `{(0,0), (2,0)}`. -/
def exWorld3x1 : CellWorld :=
  { resolution := 10
    grid := ⟨[[sandCell, sandCell, sandCell]]⟩
    active_cells := ⟨{(0, 0), (2, 0)}, ∅, ∅⟩ }

/-- A 2×1 all-wildcard rule whose single output places stone in the left
cell and keeps the right cell. -/
def exRuleStone : Rule (Occupancy ParticleKind) :=
  ⟨⟨⟨[[.Unknown, .Unknown]]⟩⟩, [⟨⟨[[.OccupiedBy .Stone, .Unknown]]⟩, Percentage.new 1⟩]⟩

/-- A 2×1 window snapshot: an empty cell next to a sand cell. -/
def exWindow : Grid ParticleCell := ⟨[[⟨none⟩, sandCell]]⟩

/-- A tick state over a 2×1 grid of sand with empty tracking sets. -/
def exSt2 : CellWorld.TickState := ⟨⟨[[sandCell, sandCell]]⟩, ActiveCells.new, []⟩

/-- A tick state over a 1×1 grid of sand with empty tracking sets. -/
def exSt1 : CellWorld.TickState := ⟨⟨[[sandCell]]⟩, ActiveCells.new, []⟩

/-- A tick state over a 1×1 grid whose affected set already holds `(0,0)`. -/
def exStAffected : CellWorld.TickState := ⟨⟨[[sandCell]]⟩, ⟨∅, ∅, {(0, 0)}⟩, []⟩

/-! # Theorems -/

/-- The clamped sum used by `Percentage`'s `Sum` impl is within `EPSILON`
of `1` exactly when the raw sum exceeds `1 - EPSILON`. -/
theorem clamp_is_one_iff (S : ℚ) : |max 0 (min S 1) - 1| < EPSILON ↔ 1 - EPSILON < S := by
  rcases le_total S 0 with h0 | h0
  · rw [min_eq_left (le_trans h0 zero_le_one), max_eq_left h0]
    simp only [zero_sub, abs_neg, abs_one]
    constructor
    · intro h; exfalso; norm_num [EPSILON] at h
    · intro h; exfalso; norm_num [EPSILON] at h; linarith
  · rcases le_total S 1 with h1 | h1
    · rw [min_eq_left h1, max_eq_right h0, abs_sub_lt_iff]
      constructor
      · rintro ⟨-, hb⟩; linarith
      · intro h
        constructor
        · norm_num [EPSILON]; linarith
        · linarith
    · rw [min_eq_right h1, max_eq_right zero_le_one]
      simp only [sub_self, abs_zero]
      constructor
      · intro _
        have : (0 : ℚ) < EPSILON := by norm_num [EPSILON]
        linarith
      · intro _; norm_num [EPSILON]

/-- For a rule whose outputs are all input-shaped, `validate` succeeds
exactly when the raw probability sum exceeds `1 - EPSILON`. -/
theorem rule_validate_iff {T : Type} (r : Rule T)
    (hdims : ∀ o ∈ r.output, o.grid.dimensions = r.input.grid.dimensions) :
    (r.validate = .ok () ↔
      1 - EPSILON < (r.output.map (fun o => o.probability.val)).sum) ∧
    (r.validate = .error (.OutputNotInProbabilisticUnity
        (Percentage.sum (r.output.map Output.probability))) ↔
      (r.output.map (fun o => o.probability.val)).sum ≤ 1 - EPSILON) := by
  have hfind : r.output.find? (fun o => o.grid.dimensions != r.input.grid.dimensions) = none :=
    List.find?_eq_none.mpr (fun o ho => by simp [hdims o ho])
  have hone : (Percentage.sum (r.output.map Output.probability)).is_one = true ↔
      1 - EPSILON < (r.output.map (fun o => o.probability.val)).sum := by
    rw [Percentage.is_one, decide_eq_true_eq, Percentage.sum, Percentage.new]
    simp only [List.map_map]
    exact clamp_is_one_iff _
  rw [Rule.validate]
  simp only [hfind]
  by_cases h : (Percentage.sum (r.output.map Output.probability)).is_one
  · rw [if_pos h]
    have hlt := hone.mp h
    constructor
    · simp [hlt]
    · constructor
      · intro hcontra; simp at hcontra
      · intro hle; exact absurd hle (not_le.mpr hlt)
  · rw [if_neg h]
    have hnlt : ¬ 1 - EPSILON < (r.output.map (fun o => o.probability.val)).sum := by
      intro hcontra; exact h (hone.mpr hcontra)
    constructor
    · constructor
      · intro hcontra; simp at hcontra
      · intro hcontra; exact absurd hcontra hnlt
    · simp [le_of_not_lt hnlt]

/-- Claim C1 (amended): for a rule whose outputs are all input-shaped,
construction fails — necessarily with `OutputNotInProbabilisticUnity` —
exactly when the raw sum of the output probabilities is at most
`1 - 1e-5`; because the `Sum` impl clamps the total into `[0, 1]` before
the unity test, every larger sum (including sums exceeding `1 + 1e-5`) is
accepted; in particular a single-output rule with probability 1.0 and
matching dimensions always succeeds. -/
theorem C1_rule_probabilistic_unity {T : Type} (r : Rule T)
    (hdims : ∀ o ∈ r.output, o.grid.dimensions = r.input.grid.dimensions) :
    ((∃ e, r.validate = .error e) ↔
      (r.output.map (fun o => o.probability.val)).sum ≤ 1 - EPSILON) ∧
    (∀ e, r.validate = .error e →
      e = .OutputNotInProbabilisticUnity (Percentage.sum (r.output.map Output.probability))) ∧
    (r.validate = .ok () ↔
      1 - EPSILON < (r.output.map (fun o => o.probability.val)).sum) ∧
    (∀ (inp : Input T) (og : Grid T), og.dimensions = inp.grid.dimensions →
      Rule.new inp [⟨og, Percentage.new 1⟩] = .ok ⟨inp, [⟨og, Percentage.new 1⟩]⟩) := by
  obtain ⟨h1, h2⟩ := rule_validate_iff r hdims
  have htot : r.validate = .ok () ∨
      r.validate = .error (.OutputNotInProbabilisticUnity
        (Percentage.sum (r.output.map Output.probability))) := by
    by_cases hS : 1 - EPSILON < (r.output.map (fun o => o.probability.val)).sum
    · exact Or.inl (h1.mpr hS)
    · exact Or.inr (h2.mpr (le_of_not_lt hS))
  refine ⟨?_, ?_, h1, ?_⟩
  · constructor
    · rintro ⟨e, he⟩
      rcases htot with hok | herr
      · rw [hok] at he; simp at he
      · have : e = .OutputNotInProbabilisticUnity
            (Percentage.sum (r.output.map Output.probability)) := by
          rw [herr] at he; exact (Except.error.injEq _ _).mp he.symm
        rw [this] at he
        exact h2.mp he
    · intro hS
      exact ⟨_, h2.mpr hS⟩
  · intro e he
    rcases htot with hok | herr
    · rw [hok] at he; simp at he
    · rw [herr] at he; exact (Except.error.injEq _ _).mp he.symm
  · intro inp og hog
    have hd : ∀ o ∈ [(⟨og, Percentage.new 1⟩ : Output T)],
        o.grid.dimensions = (⟨inp, [⟨og, Percentage.new 1⟩]⟩ : Rule T).input.grid.dimensions := by
      intro o ho
      rw [List.mem_singleton] at ho
      rw [ho]
      exact hog
    have hok : (⟨inp, [⟨og, Percentage.new 1⟩]⟩ : Rule T).validate = .ok () := by
      refine (rule_validate_iff _ hd).1.mpr ?_
      simp [Percentage.new]
      norm_num [EPSILON]
    simp [Rule.new, hok]

/-- Claim C1 counterexample: `exRuleDoubleProb` has two same-shaped 1×1
outputs of probability 1.0 each, so the probability sum 2 differs from 1
by far more than 1e-5, yet `Rule::validate` accepts the rule — the `Sum`
impl clamps the total to 1 before the `is_one` test. -/
theorem C1_counterexample :
    EPSILON ≤ |(exRuleDoubleProb.output.map (fun o => o.probability.val)).sum - 1| ∧
    exRuleDoubleProb.validate = .ok () := by
  constructor
  · simp [exRuleDoubleProb, Percentage.new]
    norm_num [EPSILON]
  · simp [Rule.validate, exRuleDoubleProb, exGrid1x1, Percentage.sum, Percentage.new,
      Percentage.is_one, Percentage.value, List.find?, Grid.dimensions, EPSILON]

/-- Witness for C1: the amended characterisation applied to
`exRuleDoubleProb` (sum 2, accepted) and to a concrete single-output rule. -/
theorem C1_witness :
    (exRuleDoubleProb.validate = .ok () ↔
      1 - EPSILON < (exRuleDoubleProb.output.map (fun o => o.probability.val)).sum) ∧
    Rule.new ⟨exGrid1x1⟩ [⟨exGrid1x1, Percentage.new 1⟩] =
      .ok ⟨⟨exGrid1x1⟩, [⟨exGrid1x1, Percentage.new 1⟩]⟩ := by
  have h := C1_rule_probabilistic_unity exRuleDoubleProb
    (by intro o ho; fin_cases ho <;> rfl)
  exact ⟨h.2.2.1, h.2.2.2 ⟨exGrid1x1⟩ exGrid1x1 rfl⟩

/-- Claim C3: the `Occupancy` matching relation is reflexive and symmetric;
`Unknown` matches (and is matched by) everything; `OccupiedByAny` matches
any `OccupiedBy` but not `Vacant`; `OccupiedBy a` matches `OccupiedBy b`
iff `a = b`; `Vacant` matches only `Vacant` and `Unknown`; and for any
`A ≠ B`, `OccupiedBy A` and `OccupiedBy B` both match `Unknown` but not
each other — so the relation is not transitive. -/
theorem C3_occupancy_matching {T : Type} [DecidableEq T] :
    (∀ a : Occupancy T, a.eq a = true) ∧
    (∀ a b : Occupancy T, a.eq b = b.eq a) ∧
    (∀ x : Occupancy T, Occupancy.eq .Unknown x = true ∧ x.eq .Unknown = true) ∧
    (∀ t : T, Occupancy.eq .OccupiedByAny (.OccupiedBy t) = true ∧
      Occupancy.eq (.OccupiedBy t) .OccupiedByAny = true) ∧
    (Occupancy.eq (T := T) .OccupiedByAny .Vacant = false) ∧
    (∀ a b : T, Occupancy.eq (.OccupiedBy a) (.OccupiedBy b) = true ↔ a = b) ∧
    (∀ x : Occupancy T, Occupancy.eq .Vacant x = true ↔ x = .Vacant ∨ x = .Unknown) ∧
    (∀ A B : T, A ≠ B →
      Occupancy.eq (.OccupiedBy A) .Unknown = true ∧
      Occupancy.eq .Unknown (.OccupiedBy B) = true ∧
      Occupancy.eq (.OccupiedBy A) (.OccupiedBy B) = false) := by
  refine ⟨?_, ?_, ?_, ?_, ?_, ?_, ?_, ?_⟩
  · intro a; cases a <;> simp [Occupancy.eq]
  · intro a b
    cases a <;> cases b <;> simp [Occupancy.eq, decide_eq_decide]
    exact eq_comm
  · intro x; cases x <;> simp [Occupancy.eq]
  · intro t; simp [Occupancy.eq]
  · simp [Occupancy.eq]
  · intro a b; simp [Occupancy.eq]
  · intro x; cases x <;> simp [Occupancy.eq]
  · intro A B hAB
    refine ⟨rfl, rfl, ?_⟩
    simp [Occupancy.eq, hAB]

/-- Witness for C3: the non-transitivity triple at `Sand ≠ Water`. -/
theorem C3_witness :
    Occupancy.eq (.OccupiedBy ParticleKind.Sand) .Unknown = true ∧
    Occupancy.eq .Unknown (.OccupiedBy ParticleKind.Water) = true ∧
    Occupancy.eq (.OccupiedBy ParticleKind.Sand) (.OccupiedBy ParticleKind.Water) = false :=
  (C3_occupancy_matching (T := ParticleKind)).2.2.2.2.2.2.2
    ParticleKind.Sand ParticleKind.Water (by decide)

/-- Claim C4 (amended): `Grid::new` succeeds — returning the grid built
from the given rows — iff the row list is nonempty and every row has the
same length as the first (a length of zero is allowed); it fails with
`EmptyGrid` exactly on an empty row list and with `UnequalRowLengths`
exactly when some row's length differs from the first row's. -/
theorem C4_grid_new_iff {α : Type} (cells : List (List α)) :
    (Grid.new cells = .ok ⟨cells⟩ ↔
      cells ≠ [] ∧ ∀ row ∈ cells, row.length = (cells.headD []).length) ∧
    (Grid.new cells = .error .EmptyGrid ↔ cells = []) ∧
    (Grid.new cells = .error .UnequalRowLengths ↔
      cells ≠ [] ∧ ∃ row ∈ cells, row.length ≠ (cells.headD []).length) := by
  rcases cells with - | ⟨r, rs⟩
  · simp [Grid.new, Grid.validate]
  · simp only [List.headD_cons]
    by_cases hall : ∀ row ∈ (r :: rs), row.length = r.length
    · have hany : (r :: rs).any (fun row => row.length != r.length) = false := by
        rw [List.any_eq_false]
        intro row hrow
        simp [hall row hrow]
      have hval : (⟨r :: rs⟩ : Grid α).validate = .ok () := by
        rw [Grid.validate]
        simp only [List.isEmpty_cons, List.headD_cons, hany, Bool.false_eq_true, if_false]
      have hv : Grid.new (r :: rs) = .ok ⟨r :: rs⟩ := by
        rw [Grid.new, hval]
      refine ⟨?_, ?_, ?_⟩
      · rw [hv]
        exact ⟨fun _ => ⟨List.cons_ne_nil r rs, hall⟩, fun _ => rfl⟩
      · rw [hv]
        simp
      · rw [hv]
        constructor
        · intro hcontra; simp at hcontra
        · rintro ⟨-, row, hrow, hne⟩
          exact absurd (hall row hrow) hne
    · have hany : (r :: rs).any (fun row => row.length != r.length) = true := by
        rw [List.any_eq_true]
        push_neg at hall
        obtain ⟨row, hrow, hne⟩ := hall
        exact ⟨row, hrow, by simpa using hne⟩
      have hval : (⟨r :: rs⟩ : Grid α).validate = .error .UnequalRowLengths := by
        rw [Grid.validate]
        simp only [List.isEmpty_cons, List.headD_cons, hany, Bool.false_eq_true, if_false,
          if_true]
      have hv : Grid.new (r :: rs) = .error .UnequalRowLengths := by
        rw [Grid.new, hval]
      push_neg at hall
      refine ⟨?_, ?_, ?_⟩
      · rw [hv]
        constructor
        · intro hcontra; simp at hcontra
        · rintro ⟨-, hall'⟩
          obtain ⟨row, hrow, hne⟩ := hall
          exact absurd (hall' row hrow) hne
      · rw [hv]
        simp
      · rw [hv]
        exact ⟨fun _ => ⟨List.cons_ne_nil r rs, hall⟩, fun _ => rfl⟩

/-- Claim C4 counterexample: `Grid::new(vec![vec![]])` — one row of length
zero — succeeds, although the claim demands rows of equal *nonzero* length
for success. -/
theorem C4_counterexample :
    Grid.new ([[]] : List (List ℕ)) = .ok ⟨[[]]⟩ ∧
    ¬ ∀ row ∈ ([[]] : List (List ℕ)), row.length ≠ 0 := by
  constructor
  · rfl
  · intro h
    exact h [] (List.mem_singleton.mpr rfl) rfl

/-- Witness for C4: the characterisation applied to a concrete 1×2 grid. -/
theorem C4_witness :
    Grid.new ([[1], [2]] : List (List ℕ)) = .ok ⟨[[1], [2]]⟩ :=
  (C4_grid_new_iff [[1], [2]]).1.mpr ⟨by simp, by decide⟩

/-- Claim C9: `set_subgrid` fails with `SubgridBiggerThanGrid` iff the
source's width or height exceeds the destination grid's *total* width or
height, independently of the offset `(x, y)`; every source fitting the
total grid size is accepted, even when the rectangle starting at `(x, y)`
overruns the remaining space. -/
theorem C9_set_subgrid_bounds {α : Type} (g : Grid α) (x y : ℕ) (src : Grid α) :
    (g.set_subgrid x y src = .error .SubgridBiggerThanGrid ↔
      g.dimensions.width < src.dimensions.width ∨
        g.dimensions.height < src.dimensions.height) ∧
    (src.dimensions.width ≤ g.dimensions.width →
      src.dimensions.height ≤ g.dimensions.height →
      ∃ g', g.set_subgrid x y src = .ok g') := by
  by_cases h : g.dimensions.width < src.dimensions.width ∨
      g.dimensions.height < src.dimensions.height
  · constructor
    · simp [Grid.set_subgrid, h]
    · intro hw hh
      exact absurd h (by push_neg; exact ⟨hw, hh⟩)
  · constructor
    · simp [Grid.set_subgrid, h]
    · intro _ _
      cases hv : g.set_subgrid x y src with
      | error e =>
        rw [Grid.set_subgrid] at hv
        simp [h] at hv
      | ok g' => exact ⟨g', rfl⟩

/-- Witness for C9: a 2×2 source written at offset `(1, 1)` of a 2×2 grid
is accepted although the rectangle does not fit the remaining space. -/
theorem C9_witness :
    ∃ g', (⟨[[0, 0], [0, 0]]⟩ : Grid ℕ).set_subgrid 1 1 ⟨[[1, 1], [1, 1]]⟩ = .ok g' :=
  (C9_set_subgrid_bounds ⟨[[0, 0], [0, 0]]⟩ 1 1 ⟨[[1, 1], [1, 1]]⟩).2
    (by decide) (by decide)

/-- A grid accepted by `validate` has a nonempty row list whose rows all
have the grid's width. -/
theorem validate_ok_rows {α : Type} (g : Grid α) (h : g.validate = .ok ()) :
    g.cells ≠ [] ∧ ∀ row ∈ g.cells, row.length = g.dimensions.width := by
  rw [Grid.validate] at h
  by_cases hemp : g.cells.isEmpty
  · rw [if_pos hemp] at h; simp at h
  · rw [if_neg hemp] at h
    by_cases hany : g.cells.any (fun row => row.length != (g.cells.headD []).length) = true
    · rw [if_pos hany] at h; simp at h
    · have hne : g.cells ≠ [] := by
        intro hnil
        rw [hnil] at hemp
        simp at hemp
      refine ⟨hne, ?_⟩
      have hwidth : g.dimensions.width = (g.cells.headD []).length := by
        rcases hc : g.cells with - | ⟨r, rs⟩
        · exact absurd hc hne
        · simp [Grid.dimensions, hc]
      rw [List.any_eq_true] at hany
      push_neg at hany
      intro row hrow
      have hxe := hany row hrow
      simp only [bne_iff_ne, ne_eq, not_not] at hxe
      rw [hwidth, hxe]

/-- If a grid row exists and holds the value at the requested column,
`Grid.get` returns it. -/
theorem Grid.get_of_get? {α : Type} (g : Grid α) (x y : ℕ) (row : List α) (v : α)
    (h1 : g.cells.get? y = some row) (h2 : row.get? x = some v) :
    g.get x y = .ok v := by
  rw [Grid.get, h1]
  simp only [h2]

/-- Cell-level description of a successful `set_subgrid`: row `r` of the
result is the original row with the columns of the written rectangle
replaced by the corresponding source cell. -/
theorem set_subgrid_ok_get? {α : Type} (g src g' : Grid α) (x y : ℕ)
    (hok : g.set_subgrid x y src = .ok g') (r : ℕ) :
    g'.cells.get? r = (g.cells.get? r).map (fun row =>
      if y ≤ r ∧ r < y + src.dimensions.height then
        mapWithIndex (fun c cell =>
          if x ≤ c ∧ c < x + src.dimensions.width then
            (((src.cells.get? (r - y)).bind (fun srow => srow.get? (c - x))).getD cell)
          else cell) row
      else row) := by
  simp only [Grid.set_subgrid] at hok
  by_cases hb : g.dimensions.width < src.dimensions.width ∨
      g.dimensions.height < src.dimensions.height
  · rw [if_pos hb] at hok; simp at hok
  · rw [if_neg hb] at hok
    cases hok
    exact mapWithIndex_get? _ _ r

/-- A successful `set_subgrid` writes the source cell `(i, j)` to the
destination cell `(x + j, y + i)`. -/
theorem set_subgrid_get_in_rect {α : Type} (g src g' : Grid α) (x y i j : ℕ) (v : α)
    (hok : g.set_subgrid x y src = .ok g')
    (hi : i < src.dimensions.height) (hj : j < src.dimensions.width)
    (row : List α) (hrowe : g.cells.get? (y + i) = some row) (hlen : x + j < row.length)
    (hcell : (src.cells.get? i).bind (fun srow => srow.get? j) = some v) :
    g'.get (x + j) (y + i) = .ok v := by
  have hget := set_subgrid_ok_get? g src g' x y hok (y + i)
  rw [hrowe, Option.map_some', if_pos ⟨Nat.le_add_right _ _, by omega⟩] at hget
  refine Grid.get_of_get? g' (x + j) (y + i) _ v hget ?_
  rw [mapWithIndex_get?, List.get?_eq_get hlen, Option.map_some',
    if_pos ⟨Nat.le_add_right x j, by omega⟩]
  simp only [Nat.add_sub_cancel_left]
  rw [hcell]
  rfl

/-- Claim C8: for every valid grid and every fully in-bounds rectangle,
writing a valid `w×h` source with `set_subgrid(x, y, src)` and then reading
`get_subgrid(x, y, w, h)` returns exactly `src`. -/
theorem C8_subgrid_roundtrip {α : Type} (g src g' : Grid α) (x y : ℕ)
    (hg : g.validate = .ok ()) (hsrc : src.validate = .ok ())
    (hw : x + src.dimensions.width ≤ g.dimensions.width)
    (hh : y + src.dimensions.height ≤ g.dimensions.height)
    (hok : g.set_subgrid x y src = .ok g') :
    g'.get_subgrid x y src.dimensions.width src.dimensions.height = .ok src := by
  obtain ⟨-, hgrows⟩ := validate_ok_rows g hg
  obtain ⟨-, hsrows⟩ := validate_ok_rows src hsrc
  have hsh : src.dimensions.height = src.cells.length := rfl
  have hgh : g.dimensions.height = g.cells.length := rfl
  rw [Grid.get_subgrid]
  refine congrArg Except.ok ?_
  have hcells : ((g'.cells.drop y).take src.dimensions.height).map
      (fun row => (row.drop x).take src.dimensions.width) = src.cells := by
    rw [List.ext_get?_iff]
    intro r
    by_cases hr : r < src.dimensions.height
    · rw [List.get?_map, List.get?_take hr, List.get?_drop]
      obtain ⟨grow, hgrow⟩ : ∃ grow, g.cells.get? (y + r) = some grow :=
        ⟨_, List.get?_eq_get (by omega)⟩
      have hget := set_subgrid_ok_get? g src g' x y hok (y + r)
      rw [hgrow, Option.map_some', if_pos ⟨Nat.le_add_right _ _, by omega⟩] at hget
      rw [hget, Option.map_some']
      obtain ⟨srow, hsrow⟩ : ∃ srow, src.cells.get? r = some srow :=
        ⟨_, List.get?_eq_get (by omega)⟩
      have hsrlen : srow.length = src.dimensions.width :=
        hsrows srow (List.get?_mem hsrow)
      have hglen : grow.length = g.dimensions.width :=
        hgrows grow (List.get?_mem hgrow)
      rw [hsrow]
      refine congrArg some ?_
      rw [List.ext_get?_iff]
      intro c
      by_cases hc : c < src.dimensions.width
      · rw [List.get?_take hc, List.get?_drop, mapWithIndex_get?]
        obtain ⟨gcell, hgc⟩ : ∃ gcell, grow.get? (x + c) = some gcell :=
          ⟨_, List.get?_eq_get (by omega)⟩
        rw [hgc, Option.map_some', if_pos ⟨Nat.le_add_right _ _, by omega⟩]
        simp only [Nat.add_sub_cancel_left]
        rw [hsrow, Option.some_bind]
        obtain ⟨v, hv⟩ : ∃ v, srow.get? c = some v :=
          ⟨_, List.get?_eq_get (by omega)⟩
        rw [hv]
        rfl
      · rw [List.get?_len_le (le_trans (List.length_take_le _ _) (le_of_not_lt hc)),
          List.get?_len_le (by omega)]
    · have hlen1 : (((g'.cells.drop y).take src.dimensions.height).map
          (fun row => (row.drop x).take src.dimensions.width)).length ≤ r := by
        rw [List.length_map, List.length_take]
        omega
      rw [List.get?_len_le hlen1, List.get?_len_le (by omega)]
  rw [hcells]

/-- Witness for C8: round-trip on a concrete 3×2 grid with a 2×1 source at
offset `(1, 1)`. -/
theorem C8_witness :
    ∃ g', (⟨[[0, 0, 0], [0, 0, 0]]⟩ : Grid ℕ).set_subgrid 1 1 ⟨[[7, 8]]⟩ = .ok g' ∧
      g'.get_subgrid 1 1 2 1 = .ok ⟨[[7, 8]]⟩ := by
  refine ⟨⟨[[0, 0, 0], [0, 7, 8]]⟩, ?_, ?_⟩
  · rfl
  · exact C8_subgrid_roundtrip ⟨[[0, 0, 0], [0, 0, 0]]⟩ ⟨[[7, 8]]⟩
      ⟨[[0, 0, 0], [0, 7, 8]]⟩ 1 1 rfl rfl (by decide) (by decide) rfl

/-- An index with a `some` lookup is below the list's length. -/
theorem lt_length_of_get? {α : Type} {l : List α} {n : ℕ} {a : α}
    (h : l.get? n = some a) : n < l.length := by
  by_contra hcon
  rw [List.get?_len_le (le_of_not_lt hcon)] at h
  exact Option.noConfusion h

/-- The output conversion preserves the output grid's dimensions. -/
theorem outputGridToCells_dims (out : Grid (Occupancy ParticleKind))
    (win : Grid ParticleCell) :
    (CellWorld.outputGridToCells out win).dimensions = out.dimensions := by
  rcases out with ⟨cells⟩
  rcases cells with - | ⟨r, rs⟩
  · rfl
  · simp [CellWorld.outputGridToCells, Grid.dimensions, mapWithIndex, mapWithIndex_length]

/-- Cell `(i, j)` of the converted output grid is the cell-wise conversion
of the output pattern cell against the window snapshot cell. -/
theorem outputGridToCells_cell (out : Grid (Occupancy ParticleKind))
    (win : Grid ParticleCell) (i j : ℕ) (orow : List (Occupancy ParticleKind))
    (ocell : Occupancy ParticleKind) (wc : ParticleCell)
    (hi : out.cells.get? i = some orow) (hj : orow.get? j = some ocell)
    (hwc : win.get j i = .ok wc) :
    ((CellWorld.outputGridToCells out win).cells.get? i).bind
      (fun srow => srow.get? j) = some (CellWorld.convertCell ocell wc) := by
  simp only [CellWorld.outputGridToCells, mapWithIndex_get?, hi, Option.map_some',
    Option.some_bind, hj]
  rw [hwc]
  cases ocell <;> simp [CellWorld.convertCell]

/-- Claim C2: when a rule fires, the written destination rectangle of the
new grid is determined cell-wise by the chosen output grid: `OccupiedBy k`
becomes a fresh particle of kind `k`, `Vacant` becomes empty, and
`OccupiedByAny` or `Unknown` keep exactly the particle that the
corresponding cell of the pre-mutation window snapshot held before the
rule fired. -/
theorem C2_rule_output_written (grid : Grid ParticleCell)
    (rule : Rule (Occupancy ParticleKind)) (x y rule_x rule_y draw : ℕ)
    (window : Grid ParticleCell) (st : CellWorld.TickState)
    (o : Output (Occupancy ParticleKind))
    (ho : rule.output.get? (draw % rule.output.length) = some o)
    (hval : st.new_grid.validate = .ok ())
    (hov : o.grid.validate = .ok ())
    (hw : rule_x + o.grid.dimensions.width ≤ st.new_grid.dimensions.width)
    (hh : rule_y + o.grid.dimensions.height ≤ st.new_grid.dimensions.height)
    (i j : ℕ) (orow : List (Occupancy ParticleKind)) (ocell : Occupancy ParticleKind)
    (hi : o.grid.cells.get? i = some orow) (hj : orow.get? j = some ocell)
    (wc : ParticleCell) (hwc : window.get j i = .ok wc) :
    (CellWorld.applyRule grid rule x y rule_x rule_y window draw st).new_grid.get
      (rule_x + j) (rule_y + i) = .ok (CellWorld.convertCell ocell wc) := by
  have hchosen : CellWorld.choose_rule_output rule window draw =
      CellWorld.outputGridToCells o.grid window := by
    rw [CellWorld.choose_rule_output, ho]
  obtain ⟨-, hsrows⟩ := validate_ok_rows o.grid hov
  obtain ⟨-, hgrows⟩ := validate_ok_rows st.new_grid hval
  have hdims : (CellWorld.outputGridToCells o.grid window).dimensions = o.grid.dimensions :=
    outputGridToCells_dims o.grid window
  have hoh : o.grid.dimensions.height = o.grid.cells.length := rfl
  have hgh : st.new_grid.dimensions.height = st.new_grid.cells.length := rfl
  have hilen : i < o.grid.cells.length := lt_length_of_get? hi
  have hjw : j < o.grid.dimensions.width := by
    have := hsrows orow (List.get?_mem hi)
    have hjlen : j < orow.length := lt_length_of_get? hj
    omega
  have hb : ¬ (st.new_grid.dimensions.width <
        (CellWorld.outputGridToCells o.grid window).dimensions.width ∨
      st.new_grid.dimensions.height <
        (CellWorld.outputGridToCells o.grid window).dimensions.height) := by
    rw [hdims]
    push_neg
    exact ⟨by omega, by omega⟩
  obtain ⟨g', hok⟩ : ∃ g', st.new_grid.set_subgrid rule_x rule_y
      (CellWorld.outputGridToCells o.grid window) = .ok g' := by
    cases hv : st.new_grid.set_subgrid rule_x rule_y
        (CellWorld.outputGridToCells o.grid window) with
    | error e =>
      simp only [Grid.set_subgrid] at hv
      rw [if_neg hb] at hv
      simp at hv
    | ok g' => exact ⟨g', rfl⟩
  have hnew : (CellWorld.applyRule grid rule x y rule_x rule_y window draw st).new_grid
      = g' := by
    simp only [CellWorld.applyRule, hchosen, hok]
  rw [hnew]
  obtain ⟨row, hrowe⟩ : ∃ row, st.new_grid.cells.get? (rule_y + i) = some row :=
    ⟨_, List.get?_eq_get (by omega)⟩
  have hrlen : row.length = st.new_grid.dimensions.width :=
    hgrows row (List.get?_mem hrowe)
  refine set_subgrid_get_in_rect st.new_grid _ g' rule_x rule_y i j _ hok ?_ ?_
    row hrowe (by omega) ?_
  · rw [hdims]
    omega
  · rw [hdims]
    exact hjw
  · exact outputGridToCells_cell o.grid window i j orow ocell wc hi hj hwc

/-- Witness for C2: applying `exRuleStone` over a 2×1 sand grid with the
window snapshot `exWindow` writes a fresh stone particle at `(0, 0)`. -/
theorem C2_witness :
    (CellWorld.applyRule exSt2.new_grid exRuleStone 0 0 0 0 exWindow 0 exSt2).new_grid.get
      0 0 = .ok ⟨some (Particle.new .Stone)⟩ :=
  C2_rule_output_written exSt2.new_grid exRuleStone 0 0 0 0 0 exWindow exSt2
    ⟨⟨[[.OccupiedBy .Stone, .Unknown]]⟩, Percentage.new 1⟩ rfl rfl rfl
    (by decide) (by decide) 0 0 [.OccupiedBy .Stone, .Unknown] (.OccupiedBy .Stone)
    rfl rfl ⟨none⟩ rfl

/-- A successful `set_subgrid` preserves the destination grid's
dimensions. -/
theorem set_subgrid_ok_dims {α : Type} (g src g' : Grid α) (x y : ℕ)
    (hok : g.set_subgrid x y src = .ok g') : g'.dimensions = g.dimensions := by
  simp only [Grid.set_subgrid] at hok
  by_cases hb : g.dimensions.width < src.dimensions.width ∨
      g.dimensions.height < src.dimensions.height
  · rw [if_pos hb] at hok
    simp at hok
  · rw [if_neg hb] at hok
    cases hok
    rcases g with ⟨cells⟩
    rcases cells with - | ⟨r, rs⟩
    · rfl
    · simp only [Grid.dimensions, mapWithIndex, List.head?_cons, Option.map_some',
        Option.getD_some, List.length_cons, mapWithIndex_length, Dimensions.mk.injEq,
        and_true]
      split
      · exact mapWithIndex_length _ _
      · rfl

/-- `applyRule` preserves the write-target grid's dimensions. -/
theorem applyRule_new_grid_dims (grid : Grid ParticleCell)
    (rule : Rule (Occupancy ParticleKind)) (x y rule_x rule_y draw : ℕ)
    (window : Grid ParticleCell) (st : CellWorld.TickState) :
    (CellWorld.applyRule grid rule x y rule_x rule_y window draw st).new_grid.dimensions
      = st.new_grid.dimensions := by
  simp only [CellWorld.applyRule]
  cases hv : st.new_grid.set_subgrid rule_x rule_y
      (CellWorld.choose_rule_output rule window draw) with
  | error e => simp
  | ok g' => simpa using set_subgrid_ok_dims _ _ _ _ _ hv

/-- The rule loop preserves the write-target grid's dimensions. -/
theorem tryRules_new_grid_dims (grid : Grid ParticleCell) (x y draw : ℕ)
    (st : CellWorld.TickState) (rules : List (Rule (Occupancy ParticleKind))) :
    (CellWorld.tryRules grid x y draw st rules).new_grid.dimensions
      = st.new_grid.dimensions := by
  induction rules with
  | nil => rfl
  | cons rule rest ih =>
    rw [CellWorld.tryRules]
    split
    · exact ih
    · split
      · exact ih
      · split
        · exact applyRule_new_grid_dims _ _ _ _ _ _ _ _ _
        · exact ih

/-- Each cell-loop iteration preserves the write-target grid's
dimensions. -/
theorem processCell_new_grid_dims (grid : Grid ParticleCell)
    (rules : List (Rule (Occupancy ParticleKind))) (draw : ℕ × ℕ → ℕ)
    (st : CellWorld.TickState) (c : ℕ × ℕ) :
    (CellWorld.processCell grid rules draw st c).new_grid.dimensions
      = st.new_grid.dimensions := by
  rw [CellWorld.processCell]
  split
  · rfl
  · exact tryRules_new_grid_dims _ _ _ _ _ _

/-- Claim C10: `CellWorld::update` preserves the grid's dimensions, for
every ordered rule list, every iteration order of the active set, every
starting world and every sequence of random draws. -/
theorem C10_update_preserves_dims (world : CellWorld)
    (rules : List (Rule (Occupancy ParticleKind)))
    (cells_to_check : List (ℕ × ℕ)) (draw : ℕ × ℕ → ℕ) :
    (CellWorld.update world rules cells_to_check draw).1.grid.dimensions
      = world.grid.dimensions := by
  have hfold : ∀ (l : List (ℕ × ℕ)) (st : CellWorld.TickState),
      (l.foldl (CellWorld.processCell world.grid rules draw) st).new_grid.dimensions
        = st.new_grid.dimensions := by
    intro l
    induction l with
    | nil => intro st; rfl
    | cons c cs ih =>
      intro st
      rw [List.foldl_cons, ih, processCell_new_grid_dims]
  simp only [CellWorld.update]
  exact hfold cells_to_check _

/-- A rule whose centred window would cross the grid's far edge is skipped:
removing it from the head of the rule list does not change the loop's
result. -/
theorem tryRules_cons_over (grid : Grid ParticleCell) (x y draw : ℕ)
    (st : CellWorld.TickState) (rule : Rule (Occupancy ParticleKind))
    (rest : List (Rule (Occupancy ParticleKind)))
    (hover : (x - rule.dimensions.width / 2) + rule.dimensions.width >
        grid.dimensions.width ∨
      (y - rule.dimensions.height / 2) + rule.dimensions.height >
        grid.dimensions.height) :
    CellWorld.tryRules grid x y draw st (rule :: rest) =
      CellWorld.tryRules grid x y draw st rest := by
  simp only [CellWorld.tryRules]
  rw [if_pos hover]

/-- A rule whose centred window fits is tested against the extracted
window: the loop applies the rule on a match and moves on otherwise. -/
theorem tryRules_cons_fit (grid : Grid ParticleCell) (x y draw : ℕ)
    (st : CellWorld.TickState) (rule : Rule (Occupancy ParticleKind))
    (rest : List (Rule (Occupancy ParticleKind))) (window : Grid ParticleCell)
    (hwin : grid.get_subgrid (x - rule.dimensions.width / 2)
        (y - rule.dimensions.height / 2) rule.dimensions.width
        rule.dimensions.height = .ok window)
    (hw : (x - rule.dimensions.width / 2) + rule.dimensions.width ≤
      grid.dimensions.width)
    (hh : (y - rule.dimensions.height / 2) + rule.dimensions.height ≤
      grid.dimensions.height) :
    CellWorld.tryRules grid x y draw st (rule :: rest) =
      if rule.matchesWith Occupancy.eq (CellWorld.particleKindWindow window) then
        CellWorld.applyRule grid rule x y (x - rule.dimensions.width / 2)
          (y - rule.dimensions.height / 2) window draw st
      else CellWorld.tryRules grid x y draw st rest := by
  have hA : ¬ ((x - rule.dimensions.width / 2) + rule.dimensions.width >
      grid.dimensions.width ∨
    (y - rule.dimensions.height / 2) + rule.dimensions.height >
      grid.dimensions.height) := by
    push_neg
    exact ⟨hw, hh⟩
  simp only [CellWorld.tryRules]
  rw [if_neg hA, hwin]

/-- Claim C5: for every active cell `(x, y)` and rule of dimensions
`(w, h)`, the candidate window's top-left corner is
`(x.saturating_sub(w/2), y.saturating_sub(h/2))`; if the rectangle would
extend past the grid's right or bottom edge the rule is skipped for this
cell (no wraparound, no clamping), and only otherwise is the window
extracted and matched. -/
theorem C5_window_centering (grid : Grid ParticleCell) (x y draw : ℕ)
    (st : CellWorld.TickState) (rule : Rule (Occupancy ParticleKind))
    (rest : List (Rule (Occupancy ParticleKind))) :
    ((x - rule.dimensions.width / 2) + rule.dimensions.width >
          grid.dimensions.width ∨
        (y - rule.dimensions.height / 2) + rule.dimensions.height >
          grid.dimensions.height →
      CellWorld.tryRules grid x y draw st (rule :: rest) =
        CellWorld.tryRules grid x y draw st rest) ∧
    (∀ window,
      grid.get_subgrid (x - rule.dimensions.width / 2)
          (y - rule.dimensions.height / 2) rule.dimensions.width
          rule.dimensions.height = .ok window →
      (x - rule.dimensions.width / 2) + rule.dimensions.width ≤
        grid.dimensions.width →
      (y - rule.dimensions.height / 2) + rule.dimensions.height ≤
        grid.dimensions.height →
      CellWorld.tryRules grid x y draw st (rule :: rest) =
        if rule.matchesWith Occupancy.eq (CellWorld.particleKindWindow window) then
          CellWorld.applyRule grid rule x y (x - rule.dimensions.width / 2)
            (y - rule.dimensions.height / 2) window draw st
        else CellWorld.tryRules grid x y draw st rest) :=
  ⟨tryRules_cons_over grid x y draw st rule rest,
    fun window hwin hw hh => tryRules_cons_fit grid x y draw st rule rest window hwin hw hh⟩

/-- Witness for C5: on a 1×1 grid a 2×1 rule overruns and is skipped; on a
2×1 grid the same-shaped `exRuleStone` fits, matches and is applied. -/
theorem C5_witness :
    CellWorld.tryRules ⟨[[sandCell]]⟩ 0 0 0 exSt1 [exRule2x1] = exSt1 ∧
    CellWorld.tryRules exSt2.new_grid 0 0 0 exSt2 [exRuleStone] =
      CellWorld.applyRule exSt2.new_grid exRuleStone 0 0 0 0
        ⟨[[sandCell, sandCell]]⟩ 0 exSt2 := by
  constructor
  · exact (C5_window_centering ⟨[[sandCell]]⟩ 0 0 0 exSt1 exRule2x1 []).1 (by decide)
  · have h := (C5_window_centering exSt2.new_grid 0 0 0 exSt2 exRuleStone []).2
      ⟨[[sandCell, sandCell]]⟩ rfl (by decide) (by decide)
    rw [h, if_pos (by rfl)]
    rfl

/-- The rule loop is first-match-wins: it applies exactly the first rule of
the ordered list that fires at the cell and skips all others. -/
theorem tryRules_eq_find (grid : Grid ParticleCell) (x y draw : ℕ)
    (st : CellWorld.TickState) (rules : List (Rule (Occupancy ParticleKind))) :
    CellWorld.tryRules grid x y draw st rules =
      match rules.find? (CellWorld.ruleFires grid x y) with
      | some rule => CellWorld.applyAt grid rule x y draw st
      | none => st := by
  induction rules with
  | nil => rfl
  | cons rule rest ih =>
    by_cases hA : (x - rule.dimensions.width / 2) + rule.dimensions.width >
        grid.dimensions.width ∨
      (y - rule.dimensions.height / 2) + rule.dimensions.height >
        grid.dimensions.height
    · have hf : CellWorld.ruleFires grid x y rule = false := by
        simp only [CellWorld.ruleFires]
        rw [if_pos hA]
      rw [tryRules_cons_over grid x y draw st rule rest hA, ih,
        List.find?_cons_of_neg _ (by simp [hf])]
    · obtain ⟨hw, hh⟩ : (x - rule.dimensions.width / 2) + rule.dimensions.width ≤
          grid.dimensions.width ∧
        (y - rule.dimensions.height / 2) + rule.dimensions.height ≤
          grid.dimensions.height := by
        push_neg at hA
        exact hA
      have hwin : grid.get_subgrid (x - rule.dimensions.width / 2)
          (y - rule.dimensions.height / 2) rule.dimensions.width
          rule.dimensions.height =
          .ok ⟨((grid.cells.drop (y - rule.dimensions.height / 2)).take
            rule.dimensions.height).map (fun row =>
              (row.drop (x - rule.dimensions.width / 2)).take
                rule.dimensions.width)⟩ := rfl
      rw [tryRules_cons_fit grid x y draw st rule rest _ hwin hw hh]
      by_cases hm : rule.matchesWith Occupancy.eq (CellWorld.particleKindWindow
          ⟨((grid.cells.drop (y - rule.dimensions.height / 2)).take
            rule.dimensions.height).map (fun row =>
              (row.drop (x - rule.dimensions.width / 2)).take
                rule.dimensions.width)⟩) = true
      · rw [if_pos hm]
        have hfires : CellWorld.ruleFires grid x y rule = true := by
          simp only [CellWorld.ruleFires]
          rw [if_neg hA]
          simp only [Grid.get_subgrid]
          exact hm
        rw [List.find?_cons_of_pos _ hfires]
        simp only [CellWorld.applyAt, Grid.get_subgrid]
      · rw [if_neg hm, ih]
        have hnf : CellWorld.ruleFires grid x y rule = false := by
          simp only [CellWorld.ruleFires]
          rw [if_neg hA]
          simp only [Grid.get_subgrid]
          exact Bool.eq_false_iff.mpr hm
        rw [List.find?_cons_of_neg _ (by simp [hnf])]

/-- Applying a rule at a cell appends exactly one entry to the tick's
application log. -/
theorem applyAt_log (grid : Grid ParticleCell) (rule : Rule (Occupancy ParticleKind))
    (x y draw : ℕ) (st : CellWorld.TickState) :
    (CellWorld.applyAt grid rule x y draw st).log.length = st.log.length + 1 := by
  simp [CellWorld.applyAt, Grid.get_subgrid, CellWorld.applyRule]

/-- Claim C6 (amended): within one tick, an active cell already contained
in `affected_this_frame` is skipped without trying any rule; each processed
cell applies exactly the first rule of the tick's ordered list that fires
(the remaining rules are skipped); and consequently each processed cell
adds at most one rule application to the tick.  (A single *grid* cell may
still be written by two applications centred at different active cells —
see the counterexample.) -/
theorem C6_first_match_wins :
    (∀ (grid : Grid ParticleCell) (rules : List (Rule (Occupancy ParticleKind)))
        (draw : ℕ × ℕ → ℕ) (st : CellWorld.TickState) (c : ℕ × ℕ),
      c ∈ st.acc.affected_this_frame →
        CellWorld.processCell grid rules draw st c = st) ∧
    (∀ (grid : Grid ParticleCell) (rules : List (Rule (Occupancy ParticleKind)))
        (draw : ℕ × ℕ → ℕ) (st : CellWorld.TickState) (c : ℕ × ℕ),
      c ∉ st.acc.affected_this_frame →
        CellWorld.processCell grid rules draw st c =
          match rules.find? (CellWorld.ruleFires grid c.1 c.2) with
          | some rule => CellWorld.applyAt grid rule c.1 c.2 (draw c) st
          | none => st) ∧
    (∀ (grid : Grid ParticleCell) (rules : List (Rule (Occupancy ParticleKind)))
        (draw : ℕ × ℕ → ℕ) (st : CellWorld.TickState) (c : ℕ × ℕ),
      (CellWorld.processCell grid rules draw st c).log.length ≤ st.log.length + 1) := by
  refine ⟨?_, ?_, ?_⟩
  · intro grid rules draw st c hc
    rw [CellWorld.processCell, if_pos hc]
  · intro grid rules draw st c hc
    rw [CellWorld.processCell, if_neg hc]
    exact tryRules_eq_find grid c.1 c.2 (draw c) st rules
  · intro grid rules draw st c
    rw [CellWorld.processCell]
    split
    · omega
    · rw [tryRules_eq_find]
      cases hfind : rules.find? (CellWorld.ruleFires grid c.1 c.2) with
      | none => simp
      | some rule => simp [applyAt_log]

/-- Witness for C6: a cell already in `affected_this_frame` is processed
into the unchanged state. -/
theorem C6_witness :
    CellWorld.processCell ⟨[[sandCell]]⟩ [exRule2x1] (fun _ => 0)
      exStAffected (0, 0) = exStAffected :=
  C6_first_match_wins.1 ⟨[[sandCell]]⟩ [exRule2x1] (fun _ => 0)
    exStAffected (0, 0) (by decide)

/-- Claim C6 counterexample: on a 3×1 grid with active cells `(0,0)` and
`(2,0)` (the list below enumerates exactly that active set), the 2×1 rule
`exRule2x1` fires at both cells in one tick; the two applications' windows
are `{(0,0),(1,0)}` and `{(1,0),(2,0)}`, so grid cell `(1,0)` is the
target of *two* rule applications in a single tick — the affected check
only guards the active cell itself, not the rest of the window. -/
theorem C6_counterexample :
    ([((0 : ℕ), (0 : ℕ)), (2, 0)].toFinset = exWorld3x1.active_cells.cells) ∧
    ([((0 : ℕ), (0 : ℕ)), (2, 0)] : List (ℕ × ℕ)).Nodup ∧
    CellWorld.timesWritten
      (CellWorld.update exWorld3x1 [exRule2x1] [(0, 0), (2, 0)] (fun _ => 0)).2
      (1, 0) = 2 := by
  refine ⟨by decide, by decide, ?_⟩
  decide

/-- Claim C7 (amended): a single-cell edit via the input path writes the
target cell directly and marks active the full 3×3 square
`x-1..=x+1 × y-1..=y+1`, saturating at the left/top edges but *not*
clamped at the right/bottom edges — coordinates past the far edge are
marked too (they never match any rule later); exactly that square joins
the active set for the next tick, and the other tracking sets are
untouched. -/
theorem C7_mouse_edit (world : CellWorld) (x y : ℕ) (tool : Option ParticleKind)
    (v : ParticleCell) (hin : world.grid.get x y = .ok v) :
    (mouseInputPlace world x y tool).grid.get x y = .ok ⟨tool.map Particle.new⟩ ∧
    (mouseInputPlace world x y tool).active_cells.cells =
      world.active_cells.cells ∪
        (Finset.Icc (x - 1) (x + 1) ×ˢ Finset.Icc (y - 1) (y + 1)) ∧
    (mouseInputPlace world x y tool).active_cells.to_check_next_frame =
      world.active_cells.to_check_next_frame ∧
    (mouseInputPlace world x y tool).active_cells.affected_this_frame =
      world.active_cells.affected_this_frame := by
  obtain ⟨row, hrow, hcol⟩ : ∃ row, world.grid.cells.get? y = some row ∧
      row.get? x = some v := by
    rw [Grid.get] at hin
    split at hin
    · simp at hin
    · rename_i row' hr'
      split at hin
      · simp at hin
      · rename_i c hc'
        simp only [Except.ok.injEq] at hin
        exact ⟨row', hr', hin ▸ hc'⟩
  have hmatch : mouseInputPlace world x y tool =
      { world with
        grid := world.grid.setCell x y ⟨tool.map Particle.new⟩
        active_cells := { world.active_cells with
          cells := world.active_cells.cells ∪
            (Finset.Icc (x - 1) (x + 1) ×ˢ Finset.Icc (y - 1) (y + 1)) } } := by
    rw [mouseInputPlace, hin]
  rw [hmatch]
  refine ⟨?_, rfl, rfl, rfl⟩
  have hy : y < world.grid.cells.length := lt_length_of_get? hrow
  have hx : x < row.length := lt_length_of_get? hcol
  refine Grid.get_of_get? _ x y (row.set x ⟨tool.map Particle.new⟩) _ ?_ ?_
  · rw [Grid.setCell, hrow]
    exact List.get?_set_eq_of_lt _ hy
  · exact List.get?_set_eq_of_lt _ hx

/-- Witness for C7: editing cell `(1,1)` of an empty 2×2 world. -/
theorem C7_witness :
    (mouseInputPlace (CellWorld.new 2 2) 1 1 (some .Sand)).grid.get 1 1 =
      .ok ⟨some (Particle.new .Sand)⟩ ∧
    (mouseInputPlace (CellWorld.new 2 2) 1 1 (some .Sand)).active_cells.cells =
      (CellWorld.new 2 2).active_cells.cells ∪
        (Finset.Icc 0 2 ×ˢ Finset.Icc 0 2) ∧
    (mouseInputPlace (CellWorld.new 2 2) 1 1 (some .Sand)).active_cells.to_check_next_frame =
      (CellWorld.new 2 2).active_cells.to_check_next_frame ∧
    (mouseInputPlace (CellWorld.new 2 2) 1 1 (some .Sand)).active_cells.affected_this_frame =
      (CellWorld.new 2 2).active_cells.affected_this_frame :=
  C7_mouse_edit (CellWorld.new 2 2) 1 1 (some .Sand) ⟨none⟩ rfl

/-- Claim C7 counterexample: editing cell `(1,1)` of a 2×2 world marks the
out-of-bounds coordinate `(2,2)` active — the 3×3 neighborhood is *not*
clamped to the grid's right/bottom edges, so the active set is not the
claimed at-most-9 in-bounds cells. -/
theorem C7_counterexample :
    (2, 2) ∈ (mouseInputPlace (CellWorld.new 2 2) 1 1 (some .Sand)).active_cells.cells ∧
    (CellWorld.new 2 2).grid.dimensions = ⟨2, 2⟩ := by
  decide

end Cells
